import Mathlib

/-!
Verification development for the Spark-log analyzer of this repository
(`Fabric/SparkHistoryLogs/analyzeLogs.py`, class `SparkLogAnalyzer`).

The Python code is shallowly embedded as executable Lean functions over
`List Char` (one `Char` per Python character; all inputs of interest are
ASCII).  Python's `re` module is modelled by a small backtracking matcher
over pattern ASTs that mirror the regex source strings one construct at a
time; Python's greedy/lazy preference order and leftmost-search semantics
are reproduced by the order of alternatives in the matcher.
-/

namespace SparkLogs

/-- ASCII model of Python `str.lower` on one character (`A`-`Z` map to
`a`-`z`, everything else unchanged; the analyzer only lowercases hostnames
and log lines, which are ASCII). -/
def lowerChar (c : Char) : Char :=
  if 65 ≤ c.toNat && c.toNat ≤ 90 then Char.ofNat (c.toNat + 32) else c

/-- Python regex `\s` restricted to ASCII: space, tab, newline, carriage
return, vertical tab, form feed. -/
def isSpaceChar (c : Char) : Bool :=
  c == ' ' || c == '\t' || c == '\n' || c == '\r' || c == '\x0b' || c == '\x0c'

/-- Lowercase ASCII letter or digit (regex class `[a-z0-9]`). -/
def isLowerAlnumB (c : Char) : Bool :=
  (97 ≤ c.toNat && c.toNat ≤ 122) || (48 ≤ c.toNat && c.toNat ≤ 57)

/-- ASCII letter or digit (regex class `[a-zA-Z0-9]`). -/
def isAlnumB (c : Char) : Bool :=
  (65 ≤ c.toNat && c.toNat ≤ 90) || (97 ≤ c.toNat && c.toNat ≤ 122) ||
    (48 ≤ c.toNat && c.toNat ≤ 57)

/-- Lowercase hex digit (regex class `[a-f0-9]`). -/
def isHexLowerB (c : Char) : Bool :=
  (97 ≤ c.toNat && c.toNat ≤ 102) || (48 ≤ c.toNat && c.toNat ≤ 57)

/-- ASCII digit (regex class `\d`, ASCII model). -/
def isDigitB (c : Char) : Bool :=
  48 ≤ c.toNat && c.toNat ≤ 57

/-- Python `a.startswith(b)` on character lists. -/
def strStarts : List Char → List Char → Bool
  | [], _ => true
  | _ :: _, [] => false
  | a :: as, b :: bs => a == b && strStarts as bs

/-- Python's substring test `pat in s` on character lists. -/
def strHas (pat : List Char) : List Char → Bool
  | [] => strStarts pat []
  | c :: cs => strStarts pat (c :: cs) || strHas pat cs

/-- Python `s.endswith(pat)` on character lists. -/
def strEnds (pat s : List Char) : Bool :=
  strStarts pat.reverse s.reverse

/-- Python `s.strip(chars)`: drop characters of `chs` from both ends. -/
def stripCharsL (chs cs : List Char) : List Char :=
  ((cs.dropWhile (chs.contains ·)).reverse.dropWhile (chs.contains ·)).reverse

/-- Part of `s` before the first occurrence of `c` (the whole of `s` when
`c` is absent): Python `s.split(c)[0]` / `s.partition(c)[0]`. -/
def takeUntilChar (cs : List Char) (c : Char) : List Char :=
  cs.takeWhile (fun d => !(d == c))

/-- Part of `s` after the last occurrence of `c` (the whole of `s` when `c`
is absent): Python `s.split(c)[-1]` / `s.rpartition(c)[2]`. -/
def afterLastChar (cs : List Char) (c : Char) : List Char :=
  ((cs.reverse.takeWhile (fun d => !(d == c)))).reverse

/-- Python `s.count(c)` for a single character. -/
def countChar (cs : List Char) (c : Char) : Nat :=
  (cs.filter (fun d => d == c)).length

/-- Python `s.replace(pat, repl)` (left-to-right, non-overlapping); `fuel`
is the length of the input, enough for one step per character. -/
def replaceAllGo (pat repl : List Char) : Nat → List Char → List Char
  | 0, cs => cs
  | _ + 1, [] => []
  | fuel + 1, c :: cs =>
    if pat ≠ [] && strStarts pat (c :: cs) then
      repl ++ replaceAllGo pat repl fuel ((c :: cs).drop pat.length)
    else
      c :: replaceAllGo pat repl fuel cs

/-- Python `s.replace(pat, repl)` for a nonempty `pat`. -/
def replaceAll (pat repl cs : List Char) : List Char :=
  replaceAllGo pat repl cs.length cs

/-- Python `s.lower()` (ASCII model). -/
def lowerL (cs : List Char) : List Char :=
  cs.map lowerChar

/-- Python `s.strip()` (no argument): strip ASCII whitespace at both ends. -/
def pyStripWs (cs : List Char) : List Char :=
  ((cs.dropWhile isSpaceChar).reverse.dropWhile isSpaceChar).reverse

/-- Character classes appearing in the analyzer's regular expressions. -/
inductive CSet where
  | digit          -- \d
  | nonColon       -- [^:]
  | nonSpaceColon  -- [^\s:]
  | nonSpace       -- [^\s]
  | colonSpace     -- [:\s]
  | nonSpaceSlash  -- [^\s/]
  | nonSpaceAt     -- [^\s@]
  | nonSpaceDot    -- [^\s.]
  | nonAt          -- [^@]
  | alnum          -- [a-zA-Z0-9]
  | hexLower       -- [a-f0-9]
  | notNewline     -- . without DOTALL, and [^\n]
deriving Repr, DecidableEq

/-- Membership of a character in a class. -/
def csetMem (s : CSet) (c : Char) : Bool :=
  match s with
  | .digit => isDigitB c
  | .nonColon => !(c == ':')
  | .nonSpaceColon => !(isSpaceChar c) && !(c == ':')
  | .nonSpace => !(isSpaceChar c)
  | .colonSpace => c == ':' || isSpaceChar c
  | .nonSpaceSlash => !(isSpaceChar c) && !(c == '/')
  | .nonSpaceAt => !(isSpaceChar c) && !(c == '@')
  | .nonSpaceDot => !(isSpaceChar c) && !(c == '.')
  | .nonAt => !(c == '@')
  | .alnum => isAlnumB c
  | .hexLower => isHexLowerB c
  | .notNewline => !(c == '\n')

/-- Regex tokens; a pattern is a token list.  `lit` is a literal run
compared case-insensitively (the analyzer compiles every stored pattern
with `re.IGNORECASE`; the module-level patterns are applied to strings
that are already lowercased, where case-insensitive literal comparison
against a lowercase literal coincides with exact comparison).  `star` is
the greedy Kleene star used to run `plus`.  `rep n c` is `c{n}`.
`optLit s` is a greedy optional literal such as `s?` or `:?`;
`optGroupPlusDigits g` is the greedy optional captured digit run
`(\d+)?`.  `gopen`/`gclose` delimit capturing group `g`. -/
inductive Tok where
  | lit (s : List Char)
  | plus (c : CSet)
  | star (c : CSet)
  | rep (n : Nat) (c : CSet)
  | lazyDotStar
  | optLit (s : List Char)
  | optGroupPlusDigits (g : Nat)
  | gopen (g : Nat)
  | gclose (g : Nat)
deriving Repr, DecidableEq

/-- A closed capture: group number, start and end offset in the subject. -/
structure Cap where
  g : Nat
  st : Nat
  en : Nat
deriving Repr, DecidableEq

/-- Strip a literal (case-insensitively) from the front of the input. -/
def stripLitCI : List Char → List Char → Option (List Char)
  | [], input => some input
  | _ :: _, [] => none
  | a :: as, b :: bs =>
    if lowerChar a == lowerChar b then stripLitCI as bs else none

/-- Backtracking matcher for a token list at a fixed position.  `pos` is
the absolute offset of `input` in the subject, `go` the stack of open
groups, `caps` the closed captures.  Preference order mirrors Python
`re`: greedy pieces try the longer alternative first, `lazyDotStar` the
shorter, so the first success is the match Python reports. -/
def matchToks : Nat → List Tok → List Char → Nat → List (Nat × Nat) →
    List Cap → Option (List Cap)
  | 0, _, _, _, _, _ => none
  | _ + 1, [], _, _, _, caps => some caps
  | fuel + 1, t :: rs, input, pos, go, caps =>
    match t with
    | .lit s =>
      match stripLitCI s input with
      | some rest => matchToks fuel rs rest (pos + s.length) go caps
      | none => none
    | .plus c =>
      match input with
      | [] => none
      | ch :: tl =>
        if csetMem c ch then matchToks fuel (.star c :: rs) tl (pos + 1) go caps
        else none
    | .star c =>
      (match input with
       | ch :: tl =>
         if csetMem c ch then matchToks fuel (.star c :: rs) tl (pos + 1) go caps
         else none
       | [] => none) <|>
      matchToks fuel rs input pos go caps
    | .rep n c =>
      let pre := input.take n
      if pre.length == n && pre.all (csetMem c) then
        matchToks fuel rs (input.drop n) (pos + n) go caps
      else none
    | .lazyDotStar =>
      matchToks fuel rs input pos go caps <|>
      (match input with
       | ch :: tl =>
         if ch == '\n' then none
         else matchToks fuel (.lazyDotStar :: rs) tl (pos + 1) go caps
       | [] => none)
    | .optLit s =>
      matchToks fuel (.lit s :: rs) input pos go caps <|>
      matchToks fuel rs input pos go caps
    | .optGroupPlusDigits g =>
      matchToks fuel (.gopen g :: .plus .digit :: .gclose g :: rs) input pos go caps <|>
      matchToks fuel rs input pos go caps
    | .gopen g => matchToks fuel rs input pos ((g, pos) :: go) caps
    | .gclose g =>
      match go with
      | (_, st) :: go2 => matchToks fuel rs input pos go2 (⟨g, st, pos⟩ :: caps)
      | [] => none

/-- Fuel bound: recursion depth is at most one step per consumed character
plus a constant number of steps per token, so this is ample. -/
def fuelFor (input : List Char) : Nat :=
  input.length + 120

/-- Try a list of top-level alternatives at one position (Python tries the
branches of `|` left to right). -/
def tryAlts (alts : List (List Tok)) (input : List Char) (pos : Nat) :
    Option (List Cap) :=
  match alts with
  | [] => none
  | a :: rest => matchToks (fuelFor input) a input pos [] [] <|> tryAlts rest input pos

/-- Python `pattern.search`: try each start position left to right,
including the empty position at the end of the subject. -/
def reSearchFrom (alts : List (List Tok)) : List Char → Nat → Option (List Cap)
  | [], pos => tryAlts alts [] pos
  | c :: tl, pos => tryAlts alts (c :: tl) pos <|> reSearchFrom alts tl (pos + 1)

/-- Search a pattern (list of top-level alternatives) in a subject. -/
def reSearch (alts : List (List Tok)) (subject : List Char) : Option (List Cap) :=
  reSearchFrom alts subject 0

/-- Python `pattern.match`: anchored at position 0 only. -/
def reMatchStart (toks : List Tok) (subject : List Char) : Option (List Cap) :=
  matchToks (fuelFor subject) toks subject 0 [] []

/-- Text of capture group `g` (`match.group(g)`): the slice of the subject
between the recorded offsets, `none` when the group did not participate. -/
def capStr (subject : List Char) (caps : List Cap) (g : Nat) : Option (List Char) :=
  match caps.find? (fun cp => cp.g == g) with
  | some cp => some ((subject.drop cp.st).take (cp.en - cp.st))
  | none => none

/-- Characters CPython's `urlsplit` accepts in a scheme after the leading
letter: letters, digits, `+`, `-`, `.`. -/
def isSchemeChar (c : Char) : Bool :=
  isAlnumB c || c == '+' || c == '-' || c == '.'

/-- Valid scheme prefix for `urlsplit`: nonempty, leading ASCII letter,
then scheme characters only. -/
def validScheme (cs : List Char) : Bool :=
  match cs with
  | [] => false
  | c :: rest =>
    ((65 ≤ c.toNat && c.toNat ≤ 90) || (97 ≤ c.toNat && c.toNat ≤ 122)) &&
      rest.all isSchemeChar

/-- Model of the CPython call
`parsed = urlparse(host_input); parsed.hostname or parsed.netloc.split(':')[0]`
used by `_extract_hostname` when the token contains `://`.  `urlsplit`
removes `scheme:` when the text before the first `:` is a valid scheme;
when what remains starts with `//`, the netloc is the run up to the first
`/`, `?` or `#`, and a netloc holding `[` without `]` (or vice versa)
raises `ValueError` (modelled as `none`, on which the Python falls back to
its manual rules).  `hostname` is the part of the netloc after the last
`@`; a bracketed IPv6 literal keeps what stands between `[` and `]`,
otherwise the part before the first `:`, lowercased.  When that is empty,
the fallback `parsed.netloc.split(':')[0]` (original case) is returned. -/
def urlparseHostL (cs : List Char) : Option (List Char) :=
  let afterScheme :=
    if strHas [':'] cs then
      let pre := takeUntilChar cs ':'
      if validScheme pre then (cs.drop pre.length).drop 1 else cs
    else cs
  if strStarts ['/', '/'] afterScheme then
    let netloc := (afterScheme.drop 2).takeWhile
      (fun c => !(c == '/' || c == '?' || c == '#'))
    if (netloc.contains '[' && !netloc.contains ']') ||
        (netloc.contains ']' && !netloc.contains '[') then
      none
    else
      let hostinfo := afterLastChar netloc '@'
      let host :=
        if hostinfo.contains '[' then
          takeUntilChar ((hostinfo.dropWhile (fun c => !(c == '['))).drop 1) ']'
        else takeUntilChar hostinfo ':'
      let hostname := lowerL host
      if hostname.isEmpty then some (takeUntilChar netloc ':') else some hostname
  else
    some []

/-- The punctuation set of `_extract_hostname`'s first strip:
`host_input.strip(' ,()"\'')`. -/
def punctChars : List Char := [' ', ',', '(', ')', '"', '\'']

/-- The punctuation set of `_extract_hostname`'s final strip, which also
removes dots: `host_input.strip(' ,()"\'.')`. -/
def punctDotChars : List Char := [' ', ',', '(', ')', '"', '\'', '.']

/-- Manual branch of `_extract_hostname` (applied when the token has no
`://`, or when `urlparse` raised): truncate at the first `/`, then at the
first `?`, then at the single `:` (tokens with more than one `:` are left
alone to avoid splitting IPv6 literals), then strip trailing/leading
punctuation including dots. -/
def extractManual (cs : List Char) : List Char :=
  let cs := if cs.contains '/' then takeUntilChar cs '/' else cs
  let cs := if cs.contains '?' then takeUntilChar cs '?' else cs
  let cs := if cs.contains ':' && !(decide (countChar cs ':' > 1)) then
      takeUntilChar cs ':'
    else cs
  stripCharsL punctDotChars cs

/-- `SparkLogAnalyzer._extract_hostname` on character lists: empty input
returns empty; otherwise strip surrounding punctuation, use the urlparse
model for tokens containing `://` (falling back to the manual rules when
it raises), else the manual rules. -/
def extractHostnameL (cs : List Char) : List Char :=
  if cs.isEmpty then []
  else
    let cs := stripCharsL punctChars cs
    if strHas [':', '/', '/'] cs then
      match urlparseHostL cs with
      | some h => h
      | none => extractManual cs
    else extractManual cs

/-- `SparkLogAnalyzer._extract_hostname`. -/
def extract_hostname (s : String) : String :=
  String.mk (extractHostnameL s.toList)

/-- Python `s.split(c)` for a one-character separator (`acc` carries the
current segment reversed). -/
def splitOnCharGo (c : Char) : List Char → List Char → List (List Char)
  | [], acc => [acc.reverse]
  | d :: ds, acc =>
    if d == c then acc.reverse :: splitOnCharGo c ds []
    else splitOnCharGo c ds (d :: acc)

/-- Python `s.split(c)` for a one-character separator. -/
def splitOnCharL (c : Char) (cs : List Char) : List (List Char) :=
  splitOnCharGo c cs []

/-- Anchored module-level pattern
`^[a-f0-9]{8}-[a-f0-9]{4}-[a-f0-9]{4}-[a-f0-9]{4}-[a-f0-9]{12}$` of
`is_trusted_host` (workspace-ID check).  An anchored match of this regex
is exactly: five hyphen-separated runs of lowercase hex digits with
lengths 8, 4, 4, 4, 12. -/
def uuidMatch (cs : List Char) : Bool :=
  match splitOnCharL '-' cs with
  | [a, b, c, d, e] =>
    a.length == 8 && b.length == 4 && c.length == 4 && d.length == 4 &&
      e.length == 12 &&
      a.all isHexLowerB && b.all isHexLowerB && c.all isHexLowerB &&
      d.all isHexLowerB && e.all isHexLowerB
  | _ => false

/-- Anchored module-level pattern `^spark\d+triprodeus$`: literally
`spark`, a nonempty digit run, then `triprodeus`. -/
def sparkHostMatch (cs : List Char) : Bool :=
  cs.length ≥ 16 && strStarts "spark".toList cs &&
    strEnds "triprodeus".toList cs &&
    ((cs.drop 5).take (cs.length - 15)).all isDigitB &&
    !((cs.drop 5).take (cs.length - 15)).isEmpty

/-- Anchored module-level pattern `^[a-z0-9]{20,22}$`: 20 to 22 lowercase
alphanumeric characters. -/
def lowerAlnum2022Match (cs : List Char) : Bool :=
  20 ≤ cs.length && cs.length ≤ 22 && cs.all isLowerAlnumB

/-- The exclusion list of the ephemeral-storage heuristic
(`common_words` in `is_trusted_host`). -/
def common_words : List String :=
  ["dev", "prod", "test", "msft", "east", "west", "central", "stage", "stag"]

/-- `SparkLogAnalyzer.DEFAULT_TRUSTED_DOMAINS`, verbatim. -/
def DEFAULT_TRUSTED_DOMAINS : List String :=
  ["pbidedicated.windows.net",
   "analysis.windows.net",
   "api.fabric.microsoft.com",
   "exec.eastus.notebook.windows.net",
   "exec.westus.notebook.windows.net",
   "exec.northeurope.notebook.windows.net",
   "exec.westeurope.notebook.windows.net",
   "onelake.dfs.fabric.microsoft.com",
   "sparkui.fabric.microsoft.com",
   "storage.azure.com",
   "tokenservice1.eastus.trident.azuresynapse.net",
   "tokenservice1.westus.trident.azuresynapse.net",
   "tokenservice1.northeurope.trident.azuresynapse.net",
   "tokenservice1.westeurope.trident.azuresynapse.net",
   "operation-service",
   "vm-",
   "localhost",
   "127.0.0.1",
   "::1"]

/-- One iteration of the trusted-domain loop of `is_trusted_host`: exact
match, domain-suffix match (`.entry` suffix or plain `entry` suffix), or
prefix match for entries ending in `-`. -/
def trustedDomainHit (hostLower td : List Char) : Bool :=
  let tl := lowerL td
  hostLower == tl ||
    strEnds ('.' :: tl) hostLower || strEnds tl hostLower ||
    (strEnds ['-'] tl && strStarts tl hostLower)

/-- The trusted-domain loop of `is_trusted_host` over the configured list
(any entry returning `True` short-circuits to `trusted`). -/
def trustedDomainLoop (tds : List (List Char)) (hostLower : List Char) : Bool :=
  tds.any (trustedDomainHit hostLower)

/-- The workspace-temp-storage branch of `is_trusted_host`: the extracted,
lowercased host contains `.dfs.core.windows.net` and `@`; the part before
the first `@`, with `abfss://`/`abfs://` removed, must match the UUID
pattern exactly. -/
def uuidContainerBranch (hostLower : List Char) : Bool :=
  strHas ".dfs.core.windows.net".toList hostLower &&
    hostLower.contains '@' &&
    uuidMatch
      (replaceAll "abfs://".toList []
        (replaceAll "abfss://".toList [] (takeUntilChar hostLower '@')))

/-- `SparkLogAnalyzer.is_trusted_host` on character lists.  The decision
chain is exactly the Python's: normalize via `_extract_hostname` (empty
means not trusted), lowercase, then the workspace-UUID branch, the
`spark\d+triprodeus` pattern on the base hostname (the lowercased host
with `.dfs.core.windows.net` removed when present), the 20-22 character
ephemeral-storage heuristic guarded by the exclusion words, and finally
the trusted-domain loop. -/
def isTrustedHostL (tds : List (List Char)) (host : List Char) : Bool :=
  let actual := extractHostnameL host
  if actual.isEmpty then false
  else
    let hostLower := lowerL actual
    if uuidContainerBranch hostLower then true
    else
      let hostnameBase :=
        if strHas ".dfs.core.windows.net".toList hostLower then
          replaceAll ".dfs.core.windows.net".toList [] hostLower
        else hostLower
      if sparkHostMatch hostnameBase then true
      else if hostnameBase.length ≥ 20 && lowerAlnum2022Match hostnameBase &&
          !(common_words.any (fun w => strHas w.toList hostnameBase)) then true
      else trustedDomainLoop tds hostLower

/-- `SparkLogAnalyzer.is_trusted_host`. -/
def is_trusted_host (tds : List String) (host : String) : Bool :=
  isTrustedHostL (tds.map String.toList) host.toList

/-- A compiled pattern: its regex source string (stored by the analyzer in
the `pattern_matched` field of each match record) and its token form as a
list of top-level alternatives (a singleton list when the regex has no
top-level `|`). -/
structure Pat where
  src : String
  alts : List (List Tok)
deriving Repr, DecidableEq

/-- `SparkLogAnalyzer.CONNECTION_PATTERNS`, one entry per regex, compiled
with `re.IGNORECASE` (the matcher compares literals case-insensitively). -/
def CONNECTION_PATTERNS : List Pat :=
  [⟨"jdbc:.*?://([^:]+):(\\d+)",
    [[.lit "jdbc:".toList, .lazyDotStar, .lit "://".toList, .gopen 1,
      .plus .nonColon, .gclose 1, .lit ":".toList, .gopen 2, .plus .digit,
      .gclose 2]]⟩,
   ⟨"https?://([^\\s:]+):?(\\d+)?",
    [[.lit "http".toList, .optLit "s".toList, .lit "://".toList, .gopen 1,
      .plus .nonSpaceColon, .gclose 1, .optLit ":".toList,
      .optGroupPlusDigits 2]]⟩,
   ⟨"connecting to ([^\\s]+):(\\d+)",
    [[.lit "connecting to ".toList, .gopen 1, .plus .nonSpace, .gclose 1,
      .lit ":".toList, .gopen 2, .plus .digit, .gclose 2]]⟩,
   ⟨"established connection to ([^\\s]+):(\\d+)",
    [[.lit "established connection to ".toList, .gopen 1, .plus .nonSpace,
      .gclose 1, .lit ":".toList, .gopen 2, .plus .digit, .gclose 2]]⟩,
   ⟨"remote address[:\\s]+([^\\s:]+):(\\d+)",
    [[.lit "remote address".toList, .plus .colonSpace, .gopen 1,
      .plus .nonSpaceColon, .gclose 1, .lit ":".toList, .gopen 2,
      .plus .digit, .gclose 2]]⟩,
   ⟨"destination[:\\s]+([^\\s:]+):(\\d+)",
    [[.lit "destination".toList, .plus .colonSpace, .gopen 1,
      .plus .nonSpaceColon, .gclose 1, .lit ":".toList, .gopen 2,
      .plus .digit, .gclose 2]]⟩,
   ⟨"target[:\\s]+([^\\s:]+):(\\d+)",
    [[.lit "target".toList, .plus .colonSpace, .gopen 1,
      .plus .nonSpaceColon, .gclose 1, .lit ":".toList, .gopen 2,
      .plus .digit, .gclose 2]]⟩,
   ⟨"s3[a]?://([^\\s/]+)",
    [[.lit "s3".toList, .optLit "a".toList, .lit "://".toList, .gopen 1,
      .plus .nonSpaceSlash, .gclose 1]]⟩,
   ⟨"wasbs?://([^\\s@]+)@([^\\s.]+)",
    [[.lit "wasb".toList, .optLit "s".toList, .lit "://".toList, .gopen 1,
      .plus .nonSpaceAt, .gclose 1, .lit "@".toList, .gopen 2,
      .plus .nonSpaceDot, .gclose 2]]⟩,
   ⟨"gs://([^\\s/]+)",
    [[.lit "gs://".toList, .gopen 1, .plus .nonSpaceSlash, .gclose 1]]⟩,
   ⟨"mongodb://([^\\s:]+):?(\\d+)?",
    [[.lit "mongodb://".toList, .gopen 1, .plus .nonSpaceColon, .gclose 1,
      .optLit ":".toList, .optGroupPlusDigits 2]]⟩,
   ⟨"kafka[:\\s]+([^\\s:]+):(\\d+)",
    [[.lit "kafka".toList, .plus .colonSpace, .gopen 1, .plus .nonSpaceColon,
      .gclose 1, .lit ":".toList, .gopen 2, .plus .digit, .gclose 2]]⟩,
   ⟨"ftp://([^\\s:]+):?(\\d+)?",
    [[.lit "ftp://".toList, .gopen 1, .plus .nonSpaceColon, .gclose 1,
      .optLit ":".toList, .optGroupPlusDigits 2]]⟩,
   ⟨"sftp://([^\\s:]+):?(\\d+)?",
    [[.lit "sftp://".toList, .gopen 1, .plus .nonSpaceColon, .gclose 1,
      .optLit ":".toList, .optGroupPlusDigits 2]]⟩,
   ⟨"([a-zA-Z0-9]+)\\.dfs\\.core\\.windows\\.net",
    [[.gopen 1, .plus .alnum, .gclose 1, .lit ".dfs.core.windows.net".toList]]⟩,
   ⟨"([a-zA-Z0-9]+)\\.blob\\.core\\.windows\\.net",
    [[.gopen 1, .plus .alnum, .gclose 1, .lit ".blob.core.windows.net".toList]]⟩,
   ⟨"([a-zA-Z0-9]+)\\.table\\.core\\.windows\\.net",
    [[.gopen 1, .plus .alnum, .gclose 1, .lit ".table.core.windows.net".toList]]⟩,
   ⟨"([a-zA-Z0-9]+)\\.queue\\.core\\.windows\\.net",
    [[.gopen 1, .plus .alnum, .gclose 1, .lit ".queue.core.windows.net".toList]]⟩,
   ⟨"abfss?://[^@]+@([^\\s.]+)\\.dfs\\.core\\.windows\\.net",
    [[.lit "abfs".toList, .optLit "s".toList, .lit "://".toList,
      .plus .nonAt, .lit "@".toList, .gopen 1, .plus .nonSpaceDot, .gclose 1,
      .lit ".dfs.core.windows.net".toList]]⟩]

/-- `SparkLogAnalyzer.PIP_PATTERNS` (compiled with `re.IGNORECASE`). -/
def PIP_PATTERNS : List Pat :=
  [⟨"pip install ([^\\s]+)",
    [[.lit "pip install ".toList, .gopen 1, .plus .nonSpace, .gclose 1]]⟩,
   ⟨"pip3 install ([^\\s]+)",
    [[.lit "pip3 install ".toList, .gopen 1, .plus .nonSpace, .gclose 1]]⟩,
   ⟨"python -m pip install ([^\\s]+)",
    [[.lit "python -m pip install ".toList, .gopen 1, .plus .nonSpace,
      .gclose 1]]⟩,
   ⟨"python3 -m pip install ([^\\s]+)",
    [[.lit "python3 -m pip install ".toList, .gopen 1, .plus .nonSpace,
      .gclose 1]]⟩,
   ⟨"Installing collected packages: ([^\\n]+)",
    [[.lit "Installing collected packages: ".toList, .gopen 1,
      .plus .notNewline, .gclose 1]]⟩,
   ⟨"Successfully installed ([^\\n]+)",
    [[.lit "Successfully installed ".toList, .gopen 1, .plus .notNewline,
      .gclose 1]]⟩]

/-- `SparkLogAnalyzer.LOGGING_PATTERNS` (compiled with `re.IGNORECASE`).
The two regexes with alternation are stored with their `|` branches as
top-level alternatives; `logging\.(?:disable|off|level)` is distributed
into three branches, which preserves Python's left-to-right branch order
(these patterns have no capture groups, only match existence is used). -/
def LOGGING_PATTERNS : List Pat :=
  [⟨"log4j|logging\\.(?:disable|off|level)",
    [[.lit "log4j".toList], [.lit "logging.disable".toList],
     [.lit "logging.off".toList], [.lit "logging.level".toList]]⟩,
   ⟨"rootLogger|logger\\.level",
    [[.lit "rootLogger".toList], [.lit "logger.level".toList]]⟩,
   ⟨"spark\\.sql\\.adaptive\\.logLevel",
    [[.lit "spark.sql.adaptive.logLevel".toList]]⟩,
   ⟨"spark\\.log\\.level",
    [[.lit "spark.log.level".toList]]⟩]

/-- The module-level ABFS raw-line pattern of `analyze_single_log_file`:
`abfss?://([a-f0-9]{8}-[a-f0-9]{4}-[a-f0-9]{4}-[a-f0-9]{4}-[a-f0-9]{12})@[a-zA-Z0-9]+\.dfs\.core\.windows\.net`
(searched without flags on the already-lowercased raw line). -/
def abfsLineToks : List Tok :=
  [.lit "abfs".toList, .optLit "s".toList, .lit "://".toList, .gopen 1,
   .rep 8 .hexLower, .lit "-".toList, .rep 4 .hexLower, .lit "-".toList,
   .rep 4 .hexLower, .lit "-".toList, .rep 4 .hexLower, .lit "-".toList,
   .rep 12 .hexLower, .gclose 1, .lit "@".toList, .plus .alnum,
   .lit ".dfs.core.windows.net".toList]

/-- A connection record (`connection_info` in `analyze_single_log_file`):
`host = match.group(1)`, `port = match.group(2)` when the pattern declares
a second group (else `None`; a declared second group that did not
participate also gives `None`), `raw_line = line.strip()`,
`pattern_matched = pattern.pattern`. -/
structure ConnectionMatch where
  line_number : Nat
  host : String
  port : Option String
  raw_line : String
  pattern_matched : String
deriving Repr, DecidableEq

/-- A pip-install record (`pip_info`). -/
structure PipMatch where
  line_number : Nat
  package : String
  raw_line : String
  pattern_matched : String
deriving Repr, DecidableEq

/-- A logging-configuration record (`logging_info`). -/
structure LoggingMatch where
  line_number : Nat
  raw_line : String
  pattern_matched : String
deriving Repr, DecidableEq

/-- The raw-line override of `analyze_single_log_file` (lines 228-237):
before consulting `is_trusted_host`, a connection found on a line whose
lowercased text contains `abfs`, `@` and `.dfs.core.windows.net` and that
matches the workspace-UUID ABFS pattern is marked trusted outright. -/
def abfs_line_override (line : List Char) : Bool :=
  let ll := lowerL line
  if strHas "abfs".toList ll && ll.contains '@' &&
      strHas ".dfs.core.windows.net".toList ll then
    (reSearch [abfsLineToks] ll).isSome
  else false

/-- Build a `ConnectionMatch` from a successful search. -/
def mkConnInfo (ln : Nat) (line : List Char) (p : Pat) (caps : List Cap) :
    ConnectionMatch :=
  { line_number := ln
    host := String.mk ((capStr line caps 1).getD [])
    port := (capStr line caps 2).map String.mk
    raw_line := String.mk (pyStripWs line)
    pattern_matched := p.src }

/-- The trust decision for one connection record: the raw-line ABFS
override, else `is_trusted_host` on the captured host token. -/
def connDecision (tds : List (List Char)) (line host : List Char) : Bool :=
  abfs_line_override line || isTrustedHostL tds host

/-- The connection branch of the per-line loop: for each pattern (in
catalog order) that matches the line, one record is appended to the
`connections` list and to exactly one of `trusted_connections` /
`external_connections`.  Returns
(connections, trusted_connections, external_connections). -/
def connScan (tds : List (List Char)) (ln : Nat) (line : List Char) :
    List Pat → List ConnectionMatch × List ConnectionMatch × List ConnectionMatch
  | [] => ([], [], [])
  | p :: ps =>
    let rest := connScan tds ln line ps
    match reSearch p.alts line with
    | none => rest
    | some caps =>
      let ci := mkConnInfo ln line p caps
      if connDecision tds line ((capStr line caps 1).getD []) then
        (ci :: rest.1, ci :: rest.2.1, rest.2.2)
      else
        (ci :: rest.1, rest.2.1, ci :: rest.2.2)

/-- The pip-install branch of the per-line loop. -/
def pipScan (ln : Nat) (line : List Char) : List Pat → List PipMatch
  | [] => []
  | p :: ps =>
    let rest := pipScan ln line ps
    match reSearch p.alts line with
    | none => rest
    | some caps =>
      { line_number := ln
        package := String.mk ((capStr line caps 1).getD [])
        raw_line := String.mk (pyStripWs line)
        pattern_matched := p.src } :: rest

/-- The logging-configuration branch of the per-line loop. -/
def logScan (ln : Nat) (line : List Char) : List Pat → List LoggingMatch
  | [] => []
  | p :: ps =>
    let rest := logScan ln line ps
    match reSearch p.alts line with
    | none => rest
    | some _ =>
      { line_number := ln
        raw_line := String.mk (pyStripWs line)
        pattern_matched := p.src } :: rest

/-- The line loop of `analyze_single_log_file` (`enumerate(f, 1)`),
accumulating the five match lists over the file's lines. -/
def scanLines (tds : List (List Char)) (ln : Nat) :
    List (List Char) →
    (List ConnectionMatch × List ConnectionMatch × List ConnectionMatch) ×
      List PipMatch × List LoggingMatch
  | [] => (([], [], []), [], [])
  | l :: rest =>
    let cte := connScan tds ln l CONNECTION_PATTERNS
    let acc := scanLines tds (ln + 1) rest
    ((cte.1 ++ acc.1.1, cte.2.1 ++ acc.1.2.1, cte.2.2 ++ acc.1.2.2),
      pipScan ln l PIP_PATTERNS ++ acc.2.1,
      logScan ln l LOGGING_PATTERNS ++ acc.2.2)

/-- Abstraction of the file system as the analyzer observes it:
`file_found` is `os.path.exists`, `size` is `os.path.getsize`,
`content_lines` the lines yielded by iterating the opened file (each line
carrying its trailing newline, decoding errors already ignored), and
`read_failure` the message of the exception raised when sizing/opening
the file, if any. -/
structure FS where
  file_found : String → Bool
  size : String → Nat
  content_lines : String → List String
  read_failure : String → Option String

/-- The per-file result dict of `analyze_single_log_file`.  `error` is the
optional `result['error']` key (absent ↦ `none`). -/
structure LogFileAnalysis where
  log_file : String
  connections : List ConnectionMatch
  external_connections : List ConnectionMatch
  trusted_connections : List ConnectionMatch
  pip_installs : List PipMatch
  logging_config : List LoggingMatch
  file_exists : Bool
  file_size : Nat
  error : Option String
deriving Repr, DecidableEq

/-- `SparkLogAnalyzer.analyze_single_log_file`: a missing file returns the
initial empty result with `file_exists = false`; a file whose
sizing/opening raises keeps empty match lists, records the file size and
carries the error message; otherwise every line is scanned against the
three pattern catalogs. -/
def analyze_single_log_file (fs : FS) (tds : List String) (path : String) :
    LogFileAnalysis :=
  let fe := fs.file_found path
  let base : LogFileAnalysis :=
    { log_file := path, connections := [], external_connections := [],
      trusted_connections := [], pip_installs := [], logging_config := [],
      file_exists := fe, file_size := 0, error := none }
  if !fe then base
  else
    match fs.read_failure path with
    | some e => { base with file_size := fs.size path, error := some e }
    | none =>
      let r := scanLines (tds.map String.toList) 1
        ((fs.content_lines path).map String.toList)
      { base with
        file_size := fs.size path, connections := r.1.1,
        trusted_connections := r.1.2.1, external_connections := r.1.2.2,
        pip_installs := r.2.1, logging_config := r.2.2 }

/-- The session metadata fields copied into `session_result['session_info']`
(each a `session.get(key, 'Unknown')`). -/
structure SessionInfo where
  notebook_name : String
  notebook_id : String
  workspace_name : String
  workspace_id : String
  spark_application_id : String
  livy_id : String
  app_url : String
  temp_directory : String
  download_timestamp : String
deriving Repr, DecidableEq

/-- One entry of the consolidated file's `log_summaries` array: the
metadata keys (absent ↦ `none`, read with default `'Unknown'`) and the
`downloaded_files` paths (`session.get('downloaded_files', [])`). -/
structure SessionInput where
  notebook_name : Option String
  notebook_id : Option String
  workspace_name : Option String
  workspace_id : Option String
  spark_application_id : Option String
  livy_id : Option String
  app_url : Option String
  temp_directory : Option String
  download_timestamp : Option String
  downloaded_files : Option (List String)
deriving Repr, DecidableEq

/-- Build `session_info` from one `log_summaries` entry. -/
def mkSessionInfo (si : SessionInput) : SessionInfo :=
  { notebook_name := si.notebook_name.getD "Unknown"
    notebook_id := si.notebook_id.getD "Unknown"
    workspace_name := si.workspace_name.getD "Unknown"
    workspace_id := si.workspace_id.getD "Unknown"
    spark_application_id := si.spark_application_id.getD "Unknown"
    livy_id := si.livy_id.getD "Unknown"
    app_url := si.app_url.getD "Unknown"
    temp_directory := si.temp_directory.getD "Unknown"
    download_timestamp := si.download_timestamp.getD "Unknown" }

/-- One element of `self.session_results`: the session metadata and the
`log_analyses` dict (`log_type → LogFileAnalysis`), modelled as an
insertion-ordered association list (Python dicts preserve insertion
order; re-assigning an existing key replaces the value in place). -/
structure SessionResult where
  session_info : SessionInfo
  log_analyses : List (String × LogFileAnalysis)
deriving Repr, DecidableEq

/-- Python dict assignment `d[k] = v` on an insertion-ordered association
list: replace in place when the key exists, else append. -/
def dictInsert (k : String) (v : LogFileAnalysis) :
    List (String × LogFileAnalysis) → List (String × LogFileAnalysis)
  | [] => [(k, v)]
  | (k2, v2) :: rest =>
    if k2 == k then (k2, v) :: rest else (k2, v2) :: dictInsert k v rest

/-- The log-type classification of `analyze_consolidated_logs`: path
containing `livy_logs` ↦ `livy`, else `stdout` ↦ `stdout`, else
`stderr` ↦ `stderr`, else `unknown`. -/
def classifyLogType (p : String) : String :=
  if strHas "livy_logs".toList p.toList then "livy"
  else if strHas "stdout".toList p.toList then "stdout"
  else if strHas "stderr".toList p.toList then "stderr"
  else "unknown"

/-- The per-session body of `analyze_consolidated_logs`: analyze each
downloaded file and store it in the `log_analyses` dict under its
log type. -/
def processSession (fs : FS) (tds : List String) (si : SessionInput) :
    SessionResult :=
  { session_info := mkSessionInfo si
    log_analyses :=
      (si.downloaded_files.getD []).foldl
        (fun d f => dictInsert (classifyLogType f)
          (analyze_single_log_file fs tds f) d) [] }

/-- The session loop of `analyze_consolidated_logs`, producing
`self.session_results`. -/
def processSessions (fs : FS) (tds : List String)
    (summaries : List SessionInput) : List SessionResult :=
  summaries.map (processSession fs tds)

/-- Outcome of loading the consolidated JSON input file: missing file,
any other read/parse exception, or a parsed document (`log_summaries`
is `none` when the key is absent from the parsed JSON object). -/
inductive LoadResult where
  | notFound
  | loadFailure (msg : String)
  | parsed (log_summaries : Option (List SessionInput))
deriving Repr, DecidableEq

/-- `SparkLogAnalyzer.analyze_consolidated_logs`: a `FileNotFoundError`
or any other exception while reading/parsing the consolidated file calls
`sys.exit(1)` (modelled as `Except.error`, no results); a parsed document
reads `log_summaries` with `consolidated_data.get('log_summaries', [])`
(an absent key silently becomes the empty session list) and analyzes
each session. -/
def analyze_consolidated_logs (fs : FS) (tds : List String)
    (load : LoadResult) : Except String (List SessionResult) :=
  match load with
  | .notFound => .error "Consolidated file not found"
  | .loadFailure e => .error e
  | .parsed ls => .ok (processSessions fs tds (ls.getD []))

/-- The summary dict built by `get_sessions_with_external_connections`. -/
structure ExternalSessionSummary where
  notebook_name : String
  notebook_id : String
  livy_id : String
  workspace_name : String
  app_url : String
  total_external_connections : Nat
  total_trusted_connections : Nat
  external_connection_details : List (String × List ConnectionMatch)
  trusted_connection_details : List (String × List ConnectionMatch)
deriving Repr, DecidableEq

/-- The summary dict built by `get_sessions_with_outbound_connections`. -/
structure OutboundSessionSummary where
  notebook_name : String
  notebook_id : String
  livy_id : String
  workspace_name : String
  app_url : String
  total_connections : Nat
  total_external_connections : Nat
  total_trusted_connections : Nat
  connection_details : List (String × List ConnectionMatch)
  external_connection_details : List (String × List ConnectionMatch)
  trusted_connection_details : List (String × List ConnectionMatch)
deriving Repr, DecidableEq

/-- Python truthiness of `analysis.get('external_connections')` over the
`log_analyses` dict: some analysis has a nonempty external list. -/
def hasExternal (s : SessionResult) : Bool :=
  s.log_analyses.any (fun a => !a.2.external_connections.isEmpty)

/-- Some analysis has a nonempty `connections` list. -/
def hasConnections (s : SessionResult) : Bool :=
  s.log_analyses.any (fun a => !a.2.connections.isEmpty)

/-- Total over the dict of one list-valued field, counting only analyses
where the list is truthy (nonempty) exactly as the Python loop does. -/
def totalOf (f : LogFileAnalysis → List ConnectionMatch) (s : SessionResult) :
    Nat :=
  s.log_analyses.foldl
    (fun n a => if !(f a.2).isEmpty then n + (f a.2).length else n) 0

/-- The per-log-type detail dict for one list-valued field: entries for
the log types whose list is truthy, in dict order. -/
def detailsOf (f : LogFileAnalysis → List ConnectionMatch)
    (s : SessionResult) : List (String × List ConnectionMatch) :=
  (s.log_analyses.filter (fun a => !(f a.2).isEmpty)).map
    (fun a => (a.1, f a.2))

/-- The summary record appended per session by
`get_sessions_with_external_connections`. -/
def mkExternalSummary (s : SessionResult) : ExternalSessionSummary :=
  { notebook_name := s.session_info.notebook_name
    notebook_id := s.session_info.notebook_id
    livy_id := s.session_info.livy_id
    workspace_name := s.session_info.workspace_name
    app_url := s.session_info.app_url
    total_external_connections := totalOf (·.external_connections) s
    total_trusted_connections := totalOf (·.trusted_connections) s
    external_connection_details := detailsOf (·.external_connections) s
    trusted_connection_details := detailsOf (·.trusted_connections) s }

/-- The summary record appended per session by
`get_sessions_with_outbound_connections`. -/
def mkOutboundSummary (s : SessionResult) : OutboundSessionSummary :=
  { notebook_name := s.session_info.notebook_name
    notebook_id := s.session_info.notebook_id
    livy_id := s.session_info.livy_id
    workspace_name := s.session_info.workspace_name
    app_url := s.session_info.app_url
    total_connections := totalOf (·.connections) s
    total_external_connections := totalOf (·.external_connections) s
    total_trusted_connections := totalOf (·.trusted_connections) s
    connection_details := detailsOf (·.connections) s
    external_connection_details := detailsOf (·.external_connections) s
    trusted_connection_details := detailsOf (·.trusted_connections) s }

/-- `SparkLogAnalyzer.get_sessions_with_external_connections`: one summary
per session of the run that has at least one external connection. -/
def get_sessions_with_external_connections (rs : List SessionResult) :
    List ExternalSessionSummary :=
  rs.foldl (fun acc s => if hasExternal s then acc ++ [mkExternalSummary s] else acc) []

/-- `SparkLogAnalyzer.get_sessions_with_outbound_connections`: one summary
per session of the run that has at least one connection of any kind. -/
def get_sessions_with_outbound_connections (rs : List SessionResult) :
    List OutboundSessionSummary :=
  rs.foldl (fun acc s => if hasConnections s then acc ++ [mkOutboundSummary s] else acc) []

/-- Forgetting the two extra fields of an outbound summary yields an
external summary over the same session data. -/
def outboundToExternalView (o : OutboundSessionSummary) :
    ExternalSessionSummary :=
  { notebook_name := o.notebook_name
    notebook_id := o.notebook_id
    livy_id := o.livy_id
    workspace_name := o.workspace_name
    app_url := o.app_url
    total_external_connections := o.total_external_connections
    total_trusted_connections := o.total_trusted_connections
    external_connection_details := o.external_connection_details
    trusted_connection_details := o.trusted_connection_details }

/-!  Theorems for the claims. -/

/-- C1: evaluation of `is_trusted_host` at the claim's two inputs.  The
first conjunct shows the code CONTRADICTS the claim and the spec's
UUID-workspace rule: for the raw ABFS token the classifier first runs
`_extract_hostname`, whose `urlparse` branch returns only the hostname
after the `@`, so the workspace-UUID branch (which requires `@` in the
extracted host) can never fire and the token is classified external.  The
second conjunct is the claim's non-UUID-container case, which does hold.
The third conjunct shows the UUID branch does fire for the same token
WITHOUT the `abfss://` scheme (where extraction keeps the `@`),
demonstrating that the scheme-stripping `replace('abfss://','')` inside
the branch is dead code and the trusted outcome was the intent.  The
fourth conjunct records what extraction does to the raw token. -/
theorem C1_uuid_workspace_rule_eval :
    is_trusted_host DEFAULT_TRUSTED_DOMAINS
      "abfss://550e8400-e29b-41d4-a716-446655440000@acctname.dfs.core.windows.net" = false ∧
    is_trusted_host DEFAULT_TRUSTED_DOMAINS
      "myteam@acctname.dfs.core.windows.net" = false ∧
    is_trusted_host DEFAULT_TRUSTED_DOMAINS
      "550e8400-e29b-41d4-a716-446655440000@acctname.dfs.core.windows.net" = true ∧
    extract_hostname
      "abfss://550e8400-e29b-41d4-a716-446655440000@acctname.dfs.core.windows.net" =
      "acctname.dfs.core.windows.net" := by
  refine ⟨?_, ?_, ?_, ?_⟩ <;> decide

/-- File system holding the single log line of claim C2 exactly as the
spec states it. -/
def fsC2 : FS :=
  { file_found := fun p => p == "driver.log"
    size := fun _ => 51
    content_lines := fun p =>
      if p == "driver.log" then
        ["Establishing connection to 10.0.0.5:9092 for kafka\n"]
      else []
    read_failure := fun _ => none }

/-- C2 counterexample: analyzing a log file whose only line is
`Establishing connection to 10.0.0.5:9092 for kafka` produces NO
connection match at all — the phrase matches neither `connecting to` nor
`established connection to` nor any other catalog pattern — so in
particular no match with host `10.0.0.5` and port `9092` exists. -/
theorem C2_counterexample :
    (analyze_single_log_file fsC2 DEFAULT_TRUSTED_DOMAINS "driver.log").connections = [] ∧
    (analyze_single_log_file fsC2 DEFAULT_TRUSTED_DOMAINS "driver.log").file_exists = true := by
  refine ⟨?_, ?_⟩ <;> decide

/-- File system holding the amended log line for claim C2. -/
def fsC2amended : FS :=
  { file_found := fun p => p == "driver.log"
    size := fun _ => 52
    content_lines := fun p =>
      if p == "driver.log" then
        ["Established connection to 10.0.0.5:9092 for kafka\n"]
      else []
    read_failure := fun _ => none }

/-- C2 amended: a log line using the catalog phrase `established
connection to` (the minimal repair of the claimed line) produces a
connection match with host `10.0.0.5` and port `9092` on line 1. -/
theorem C2_amended_established_connection :
    ∃ c ∈ (analyze_single_log_file fsC2amended DEFAULT_TRUSTED_DOMAINS
        "driver.log").connections,
      c.host = "10.0.0.5" ∧ c.port = some "9092" ∧ c.line_number = 1 := by
  decide

/-- File system with no files, used for the consolidated-input claims. -/
def fsEmptyC3 : FS :=
  { file_found := fun _ => false
    size := fun _ => 0
    content_lines := fun _ => []
    read_failure := fun _ => none }

/-- C3 counterexample: a top-level document that parses as JSON but has no
`log_summaries` key is NOT fatal — `consolidated_data.get('log_summaries', [])`
silently substitutes the empty list and the run completes normally with an
empty (not error) result, contradicting the claim that the error is
surfaced to the caller. -/
theorem C3_counterexample :
    analyze_consolidated_logs fsEmptyC3 DEFAULT_TRUSTED_DOMAINS
      (.parsed none) = .ok [] := rfl

/-- C3 amended: a consolidated file that is missing or whose read/JSON
parse raises is fatal for the whole run (`sys.exit(1)`, modelled as
`Except.error`; no session results are produced), while a document that
parses but lacks the `log_summaries` key is treated as an empty session
list and the run succeeds with no session results. -/
theorem C3_amended_fatal_cases (fs : FS) (tds : List String) :
    (∀ e, analyze_consolidated_logs fs tds (.loadFailure e) = .error e) ∧
    analyze_consolidated_logs fs tds .notFound =
      .error "Consolidated file not found" ∧
    analyze_consolidated_logs fs tds (.parsed none) = .ok [] :=
  ⟨fun _ => rfl, rfl, rfl⟩

/-- C6: a path that does not exist yields exactly the initial result
record: `file_exists = false`, every match list empty, `file_size = 0`
and no `error` key. -/
theorem C6_missing_file (fs : FS) (tds : List String) (path : String)
    (h : fs.file_found path = false) :
    analyze_single_log_file fs tds path =
      { log_file := path, connections := [], external_connections := [],
        trusted_connections := [], pip_installs := [], logging_config := [],
        file_exists := false, file_size := 0, error := none } := by
  simp [analyze_single_log_file, h]

/-- File system with no files, used for the missing-file witness. -/
def fsEmptyC6 : FS :=
  { file_found := fun _ => false
    size := fun _ => 0
    content_lines := fun _ => []
    read_failure := fun _ => none }

/-- C6 witness: the missing-file theorem applied at a concrete file
system and path. -/
theorem C6_missing_file_witness :
    analyze_single_log_file fsEmptyC6 DEFAULT_TRUSTED_DOMAINS "absent.log" =
      { log_file := "absent.log", connections := [], external_connections := [],
        trusted_connections := [], pip_installs := [], logging_config := [],
        file_exists := false, file_size := 0, error := none } :=
  C6_missing_file fsEmptyC6 DEFAULT_TRUSTED_DOMAINS "absent.log" rfl

/-- C8: normalization and classification are total functions of the
input string — for every input (of either function, malformed or not)
there is a result, and it is unique because both are plain functions;
in the embedding this is true by construction, mirroring the Python
whose only fallible call (`urlparse`) is wrapped in `try/except` and
whose remaining operations are total string surgery. -/
theorem C8_classification_total (tds : List String) (s : String) :
    (∃ b : Bool, is_trusted_host tds s = b) ∧
    (∃ r : String, extract_hostname s = r) :=
  ⟨⟨_, rfl⟩, ⟨_, rfl⟩⟩

/-- The `connections` list of a line scan carries one record per matching
pattern of the scanned catalog, in catalog order, each stamped with its
pattern's source string. -/
theorem connScan_map_pattern_matched (tds : List (List Char)) (ln : Nat)
    (line : List Char) :
    ∀ pats : List Pat,
      ((connScan tds ln line pats).1).map (fun c => c.pattern_matched) =
        (pats.filter (fun p => (reSearch p.alts line).isSome)).map Pat.src
  | [] => rfl
  | p :: ps => by
    have ih := connScan_map_pattern_matched tds ln line ps
    simp only [connScan]
    cases hs : reSearch p.alts line with
    | none => simpa [hs] using ih
    | some caps =>
      by_cases hd : connDecision tds line ((capStr line caps 1).getD []) = true
      · simp [hs, hd, mkConnInfo, ih]
      · simp [hs, hd, mkConnInfo, ih]

/-- C9: for every log line (and any trusted-domain configuration), the
per-line connection scan emits exactly one `ConnectionMatch` per catalog
pattern whose search succeeds on the line — in particular a line matched
by two patterns yields two records — and the 19 catalog pattern strings
stamped into the records are pairwise distinct, so those two records
differ.  No deduplication happens across patterns. -/
theorem C9_one_record_per_matching_pattern (tds : List (List Char))
    (ln : Nat) (line : List Char) :
    ((connScan tds ln line CONNECTION_PATTERNS).1).map
        (fun c => c.pattern_matched) =
      (CONNECTION_PATTERNS.filter
        (fun p => (reSearch p.alts line).isSome)).map Pat.src ∧
    (CONNECTION_PATTERNS.map Pat.src).Nodup :=
  ⟨connScan_map_pattern_matched tds ln line CONNECTION_PATTERNS, by decide⟩

/-- Each record of a line scan goes to `connections` and to exactly one of
the trusted/external lists: as multisets, `connections` is the sum of the
two. -/
theorem connScan_partition (tds : List (List Char)) (ln : Nat)
    (line : List Char) :
    ∀ pats : List Pat,
      (((connScan tds ln line pats).1 : List ConnectionMatch) :
          Multiset ConnectionMatch) =
        ↑(connScan tds ln line pats).2.1 + ↑(connScan tds ln line pats).2.2
  | [] => rfl
  | p :: ps => by
    have ih := connScan_partition tds ln line ps
    simp only [connScan]
    cases hs : reSearch p.alts line with
    | none => simpa [hs] using ih
    | some caps =>
      by_cases hd : connDecision tds line ((capStr line caps 1).getD []) = true
      · simp only [hs, hd, if_pos]
        rw [← Multiset.cons_coe, ← Multiset.cons_coe, ih, Multiset.cons_add]
      · simp only [hs, hd, if_neg, Bool.false_eq_true, not_false_iff]
        rw [← Multiset.cons_coe, ← Multiset.cons_coe, ih]
        rw [add_comm, ← Multiset.cons_add, add_comm]

/-- The partition property lifted over the line loop. -/
theorem scanLines_partition (tds : List (List Char)) :
    ∀ (lines : List (List Char)) (ln : Nat),
      (((scanLines tds ln lines).1.1 : List ConnectionMatch) :
          Multiset ConnectionMatch) =
        ↑(scanLines tds ln lines).1.2.1 + ↑(scanLines tds ln lines).1.2.2
  | [], _ => rfl
  | l :: rest, ln => by
    have ih := scanLines_partition tds rest (ln + 1)
    have hl := connScan_partition tds ln l CONNECTION_PATTERNS
    simp only [scanLines]
    rw [← Multiset.coe_add, ← Multiset.coe_add, ← Multiset.coe_add, hl, ih]
    exact add_add_add_comm _ _ _ _

/-- The partition property for every produced analysis (helper shared by
the invariant theorem and the aggregation-view theorems). -/
theorem analyze_partition_aux (fs : FS) (tds : List String) (path : String) :
    (((analyze_single_log_file fs tds path).connections :
        List ConnectionMatch) : Multiset ConnectionMatch) =
      ↑(analyze_single_log_file fs tds path).trusted_connections +
        ↑(analyze_single_log_file fs tds path).external_connections := by
  simp only [analyze_single_log_file]
  by_cases hfe : fs.file_found path
  · simp only [hfe, Bool.not_true, if_neg, Bool.false_eq_true, not_false_iff]
    cases hrf : fs.read_failure path with
    | some e => simp
    | none =>
      simp only []
      exact scanLines_partition _ _ 1
  · simp [hfe]

/-- C5: in every analysis produced by `analyze_single_log_file`, the
`trusted_connections` and `external_connections` lists partition the
`connections` list — as multisets, `connections` equals their sum, so
every match appended to `connections` lands in exactly one of the two
(none in both, none in neither; there is no third trust state). -/
theorem C5_trust_partition (fs : FS) (tds : List String) (path : String) :
    (((analyze_single_log_file fs tds path).connections :
        List ConnectionMatch) : Multiset ConnectionMatch) =
      ↑(analyze_single_log_file fs tds path).trusted_connections +
        ↑(analyze_single_log_file fs tds path).external_connections :=
  analyze_partition_aux fs tds path

/-- Every record placed in the trusted list of a line scan passed the
connection trust decision on its own host token. -/
theorem connScan_trusted_decision (tds : List (List Char)) (ln : Nat)
    (line : List Char) :
    ∀ (pats : List Pat) (ci : ConnectionMatch),
      ci ∈ (connScan tds ln line pats).2.1 →
      connDecision tds line ci.host.toList = true
  | [], ci, h => absurd h (List.not_mem_nil ci)
  | p :: ps, ci, h => by
    simp only [connScan] at h
    cases hs : reSearch p.alts line with
    | none =>
      rw [hs] at h
      exact connScan_trusted_decision tds ln line ps ci h
    | some caps =>
      rw [hs] at h
      by_cases hd : connDecision tds line ((capStr line caps 1).getD []) = true
      · have h2 : ci = mkConnInfo ln line p caps ∨
            ci ∈ (connScan tds ln line ps).2.1 := by
          simpa [hd] using h
        rcases h2 with hc | hc
        · subst hc; exact hd
        · exact connScan_trusted_decision tds ln line ps ci hc
      · have h2 : ci ∈ (connScan tds ln line ps).2.1 := by
          simpa [hd] using h
        exact connScan_trusted_decision tds ln line ps ci h2

/-- A host token whose normalization is empty is never trusted (the guard
`if not actual_host: return False` of `is_trusted_host`). -/
theorem isTrustedHostL_empty_extract (tds : List (List Char))
    (cs : List Char) (h : extractHostnameL cs = []) :
    isTrustedHostL tds cs = false := by
  simp [isTrustedHostL, h]

/-- Line on which claim C10 fails: the captured host token `()` (whose
normalization is empty) is categorized TRUSTED because the raw line also
contains a workspace-UUID ABFS URL, which the raw-line override of
`analyze_single_log_file` honors before `is_trusted_host` is consulted. -/
def lineC10 : List Char :=
  "connecting to ():42 abfss://550e8400-e29b-41d4-a716-446655440000@acctname.dfs.core.windows.net\n".toList

/-- C10 counterexample: on `lineC10` the scan produces a connection with
host `()` — a token normalizing to the empty string — inside
`trusted_connections`, so such a connection is NOT always categorized
external. -/
theorem C10_counterexample :
    ∃ ci ∈ (connScan (DEFAULT_TRUSTED_DOMAINS.map String.toList) 1 lineC10
        CONNECTION_PATTERNS).2.1,
      ci.host = "()" ∧ extract_hostname ci.host = "" := by
  decide

/-- C10 amended: a token whose normalization is empty makes
`is_trusted_host` return false, and the corresponding connection is
categorized external — i.e. never appears among the trusted
connections — unless the raw log line itself triggers the workspace-UUID
ABFS override, which marks every connection of that line trusted without
consulting the host token. -/
theorem C10_empty_hostname_external :
    (∀ (tds : List String) (host : String), extract_hostname host = "" →
        is_trusted_host tds host = false) ∧
    (∀ (tds : List (List Char)) (ln : Nat) (line : List Char)
        (ci : ConnectionMatch),
      abfs_line_override line = false →
      ci ∈ (connScan tds ln line CONNECTION_PATTERNS).2.1 →
      extract_hostname ci.host ≠ "") := by
  constructor
  · intro tds host h
    have hl : extractHostnameL host.toList = [] := by
      have := congrArg String.data h
      simpa [extract_hostname] using this
    exact isTrustedHostL_empty_extract _ _ hl
  · intro tds ln line ci hov hmem hempty
    have hdec := connScan_trusted_decision tds ln line CONNECTION_PATTERNS ci hmem
    have hl : extractHostnameL ci.host.toList = [] := by
      have := congrArg String.data hempty
      simpa [extract_hostname] using this
    rw [connDecision, hov, Bool.false_or,
      isTrustedHostL_empty_extract _ _ hl] at hdec
    exact Bool.false_ne_true hdec

/-- Concrete trusted connection used by the C10 witness. -/
def ciLocalhost : ConnectionMatch :=
  { line_number := 1, host := "localhost", port := some "80",
    raw_line := "connecting to localhost:80",
    pattern_matched := "connecting to ([^\\s]+):(\\d+)" }

/-- C10 witness: both parts of the amended claim applied at concrete
inputs — `()` normalizes to empty and is not trusted; on a line without
the ABFS override, the trusted record for `localhost` has a nonempty
normalized host. -/
theorem C10_empty_hostname_external_witness :
    is_trusted_host DEFAULT_TRUSTED_DOMAINS "()" = false ∧
    extract_hostname ciLocalhost.host ≠ "" :=
  ⟨C10_empty_hostname_external.1 DEFAULT_TRUSTED_DOMAINS "()" rfl,
   C10_empty_hostname_external.2 (DEFAULT_TRUSTED_DOMAINS.map String.toList)
     1 "connecting to localhost:80\n".toList ciLocalhost (by decide) (by decide)⟩

/-- The append-accumulating session loops are filter-then-map. -/
theorem foldl_filter_append {α β : Type} (p : α → Bool) (f : α → β) :
    ∀ (l : List α) (acc : List β),
      l.foldl (fun a x => if p x then a ++ [f x] else a) acc =
        acc ++ (l.filter p).map f
  | [], acc => by simp
  | x :: xs, acc => by
    simp only [List.foldl, List.filter]
    cases hp : p x
    · simp [foldl_filter_append p f xs acc]
    · simp [foldl_filter_append p f xs (acc ++ [f x])]

/-- `get_sessions_with_external_connections` selects exactly the sessions
with an external connection. -/
theorem get_external_eq (rs : List SessionResult) :
    get_sessions_with_external_connections rs =
      (rs.filter hasExternal).map mkExternalSummary := by
  simpa using foldl_filter_append hasExternal mkExternalSummary rs []

/-- `get_sessions_with_outbound_connections` selects exactly the sessions
with any connection. -/
theorem get_outbound_eq (rs : List SessionResult) :
    get_sessions_with_outbound_connections rs =
      (rs.filter hasConnections).map mkOutboundSummary := by
  simpa using foldl_filter_append hasConnections mkOutboundSummary rs []

/-- `dictInsert` preserves a property of all stored analyses. -/
theorem dictInsert_values_prop (P : LogFileAnalysis → Prop) (k : String)
    (v : LogFileAnalysis) (hv : P v) :
    ∀ d : List (String × LogFileAnalysis), (∀ kv ∈ d, P kv.2) →
      ∀ kv ∈ dictInsert k v d, P kv.2
  | [], _, kv, hm => by
    simp only [dictInsert, List.mem_singleton] at hm
    subst hm; exact hv
  | (k2, v2) :: rest, hd, kv, hm => by
    simp only [dictInsert] at hm
    by_cases he : (k2 == k) = true
    · rw [if_pos he] at hm
      rcases List.mem_cons.mp hm with hc | hc
      · subst hc; exact hv
      · exact hd _ (List.mem_cons_of_mem _ hc)
    · rw [if_neg he] at hm
      rcases List.mem_cons.mp hm with hc | hc
      · subst hc; exact hd _ (List.mem_cons_self _ _)
      · exact dictInsert_values_prop P k v hv rest
          (fun kv2 h2 => hd _ (List.mem_cons_of_mem _ h2)) kv hc

/-- Every analysis stored by the downloaded-files loop of a session is an
output of `analyze_single_log_file`. -/
theorem session_fold_analyses (fs : FS) (tds : List String) :
    ∀ (files : List String) (d : List (String × LogFileAnalysis)),
      (∀ kv ∈ d, ∃ f, kv.2 = analyze_single_log_file fs tds f) →
      ∀ kv ∈ files.foldl
        (fun d2 f => dictInsert (classifyLogType f)
          (analyze_single_log_file fs tds f) d2) d,
        ∃ f, kv.2 = analyze_single_log_file fs tds f
  | [], _, hd, kv, hm => hd kv hm
  | f :: rest, d, hd, kv, hm => by
    simp only [List.foldl] at hm
    exact session_fold_analyses fs tds rest _
      (dictInsert_values_prop (fun a => ∃ g, a = analyze_single_log_file fs tds g)
        (classifyLogType f) (analyze_single_log_file fs tds f) ⟨f, rfl⟩ d hd)
      kv hm

/-- A produced analysis with a nonempty external list has a nonempty
`connections` list (corollary of the partition property). -/
theorem analyze_ext_nonempty (fs : FS) (tds : List String) (f : String)
    (h : (analyze_single_log_file fs tds f).external_connections ≠ []) :
    (analyze_single_log_file fs tds f).connections ≠ [] := by
  intro hc
  have hp := analyze_partition_aux fs tds f
  rw [hc] at hp
  have hlen := congrArg Multiset.card hp
  simp [Multiset.coe_card] at hlen
  have hzero : (analyze_single_log_file fs tds f).external_connections.length = 0 := by
    omega
  exact h (List.length_eq_zero.mp hzero)

/-- In every session produced by the session loop, the presence of an
external connection implies the presence of a connection. -/
theorem processSession_hasConnections (fs : FS) (tds : List String)
    (si : SessionInput) (h : hasExternal (processSession fs tds si) = true) :
    hasConnections (processSession fs tds si) = true := by
  rw [hasExternal, List.any_eq_true] at h
  obtain ⟨kv, hkv, hne⟩ := h
  obtain ⟨f, hf⟩ := session_fold_analyses fs tds _ [] (by simp) kv hkv
  have hne2 : kv.2.external_connections ≠ [] := by
    intro hh; rw [hh] at hne; simp at hne
  have hc2 : kv.2.connections ≠ [] := by
    rw [hf] at hne2 ⊢
    exact analyze_ext_nonempty fs tds f hne2
  rw [hasConnections, List.any_eq_true]
  refine ⟨kv, hkv, ?_⟩
  cases hlist : kv.2.connections with
  | nil => exact absurd hlist hc2
  | cons a l => rfl

/-- C7: for every analysis run produced by the session loop, every session
summary returned by `get_sessions_with_external_connections` is also
returned (with two extra fields, forgotten by `outboundToExternalView`)
by `get_sessions_with_outbound_connections`: the sessions-with-any-
connection view is a superset of the sessions-with-external-connections
view. -/
theorem C7_external_view_subset_outbound (fs : FS) (tds : List String)
    (summaries : List SessionInput) (s : ExternalSessionSummary)
    (hs : s ∈ get_sessions_with_external_connections
      (processSessions fs tds summaries)) :
    s ∈ (get_sessions_with_outbound_connections
        (processSessions fs tds summaries)).map outboundToExternalView := by
  rw [get_external_eq] at hs
  obtain ⟨r, hr, rfl⟩ := List.mem_map.mp hs
  obtain ⟨hrun, hext⟩ := List.mem_filter.mp hr
  obtain ⟨si, _, rfl⟩ := List.mem_map.mp hrun
  have hconn := processSession_hasConnections fs tds si hext
  rw [get_outbound_eq, List.map_map]
  exact List.mem_map.mpr ⟨processSession fs tds si,
    List.mem_filter.mpr ⟨hrun, hconn⟩, rfl⟩

/-- File system for the C7 witness run: one stderr log with one external
connection line. -/
def fsC7 : FS :=
  { file_found := fun p => p == "stderr_1.log"
    size := fun _ => 34
    content_lines := fun p =>
      if p == "stderr_1.log" then ["connecting to evil.example.com:80\n"] else []
    read_failure := fun _ => none }

/-- Session input for the C7 witness run. -/
def siC7 : SessionInput :=
  { notebook_name := some "nb1", notebook_id := some "id1",
    workspace_name := some "ws1", workspace_id := some "wid1",
    spark_application_id := some "app1", livy_id := some "livy1",
    app_url := some "url1", temp_directory := none,
    download_timestamp := none, downloaded_files := some ["stderr_1.log"] }

/-- The external-view summary of the C7 witness session. -/
def sC7 : ExternalSessionSummary :=
  mkExternalSummary (processSession fsC7 DEFAULT_TRUSTED_DOMAINS siC7)

/-- C7 witness: the superset theorem applied to a concrete one-session
run whose stderr log contains one external connection. -/
theorem C7_external_view_subset_outbound_witness :
    sC7 ∈ (get_sessions_with_outbound_connections
        (processSessions fsC7 DEFAULT_TRUSTED_DOMAINS [siC7])).map
      outboundToExternalView :=
  C7_external_view_subset_outbound fsC7 DEFAULT_TRUSTED_DOMAINS [siC7] sC7
    (by decide)

/-- Numeric characterization of the lowercase-alphanumeric class. -/
theorem lowerAlnum_toNat {c : Char} (h : isLowerAlnumB c = true) :
    (97 ≤ c.toNat ∧ c.toNat ≤ 122) ∨ (48 ≤ c.toNat ∧ c.toNat ≤ 57) := by
  simpa [isLowerAlnumB] using h

/-- A lowercase-alphanumeric character is not equal (as `==`) to any
character outside the class. -/
theorem beq_false_of_lowerAlnum {c d : Char} (hc : isLowerAlnumB c = true)
    (hd : isLowerAlnumB d = false) : (d == c) = false ∧ (c == d) = false := by
  have hne : c ≠ d := fun he => by rw [he, hd] at hc; exact Bool.false_ne_true hc
  exact ⟨beq_eq_false_iff_ne.mpr (Ne.symm hne), beq_eq_false_iff_ne.mpr hne⟩

/-- Lowercasing fixes a lowercase-alphanumeric character. -/
theorem lowerChar_fix {c : Char} (h : isLowerAlnumB c = true) :
    lowerChar c = c := by
  have h1 := lowerAlnum_toNat h
  have hcond : (65 ≤ c.toNat && c.toNat ≤ 90) = false := by
    simp only [Bool.and_eq_false_iff, decide_eq_false_iff_not, not_le]
    omega
  simp [lowerChar, hcond]

/-- Lowercasing fixes a lowercase-alphanumeric string. -/
theorem lowerL_fix {cs : List Char} (h : ∀ c ∈ cs, isLowerAlnumB c = true) :
    lowerL cs = cs := by
  induction cs with
  | nil => rfl
  | cons a l ih =>
    simp only [lowerL, List.map_cons]
    rw [lowerChar_fix (h a (List.mem_cons_self _ _))]
    have := ih (fun c hc => h c (List.mem_cons_of_mem _ hc))
    simp only [lowerL] at this
    rw [this]

/-- `dropWhile` is the identity when no element satisfies the predicate. -/
theorem dropWhile_false_all {p : Char → Bool} :
    ∀ {l : List Char}, (∀ c ∈ l, p c = false) → l.dropWhile p = l
  | [], _ => rfl
  | a :: l, h => by simp [List.dropWhile, h a (List.mem_cons_self _ _)]

/-- `stripCharsL` is the identity when no character of the string is in
the stripped set. -/
theorem stripCharsL_fix {chs cs : List Char}
    (h : ∀ c ∈ cs, (chs.contains c) = false) : stripCharsL chs cs = cs := by
  rw [stripCharsL, dropWhile_false_all h, dropWhile_false_all, List.reverse_reverse]
  intro c hc
  exact h c (List.mem_reverse.mp hc)

/-- A character outside the lowercase-alphanumeric class does not occur in
a lowercase-alphanumeric string. -/
theorem contains_char_false {cs : List Char} (d : Char)
    (h : ∀ c ∈ cs, isLowerAlnumB c = true) (hd : isLowerAlnumB d = false) :
    (cs.contains d) = false := by
  cases hx : cs.contains d
  · rfl
  · have hm : d ∈ cs := List.mem_of_elem_eq_true hx
    rw [h d hm] at hd
    exact absurd hd (by decide)

/-- A lowercase-alphanumeric character is not in the punctuation-and-dot
strip set. -/
theorem punctDot_contains_false {c : Char} (h : isLowerAlnumB c = true) :
    (punctDotChars.contains c) = false := by
  cases hx : punctDotChars.contains c
  · rfl
  · have hm : c ∈ punctDotChars := List.mem_of_elem_eq_true hx
    simp only [punctDotChars, List.mem_cons, List.not_mem_nil, or_false] at hm
    rcases hm with rfl | rfl | rfl | rfl | rfl | rfl | rfl <;>
      exact absurd h (by decide)

/-- A lowercase-alphanumeric character is not in the punctuation strip
set. -/
theorem punct_contains_false {c : Char} (h : isLowerAlnumB c = true) :
    (punctChars.contains c) = false := by
  cases hx : punctChars.contains c
  · rfl
  · have hm : c ∈ punctChars := List.mem_of_elem_eq_true hx
    simp only [punctChars, List.mem_cons, List.not_mem_nil, or_false] at hm
    rcases hm with rfl | rfl | rfl | rfl | rfl | rfl <;>
      exact absurd h (by decide)

/-- A pattern whose first character never occurs in the subject is not a
substring of it. -/
theorem strHas_false (p : Char) (ps : List Char) :
    ∀ (cs : List Char), (∀ c ∈ cs, (p == c) = false) →
      strHas (p :: ps) cs = false
  | [], _ => rfl
  | c :: cs, h => by
    have h0 : (p == c) = false := h c (List.mem_cons_self _ _)
    have hrest := strHas_false p ps cs
      (fun d hd => h d (List.mem_cons_of_mem _ hd))
    simp [strHas, strStarts, h0, hrest]

/-- Substring test against a pattern headed by a non-alphanumeric
character fails on a lowercase-alphanumeric subject. -/
theorem strHas_false_of_alnum {p : Char} {ps cs : List Char}
    (h : ∀ c ∈ cs, isLowerAlnumB c = true) (hp : isLowerAlnumB p = false) :
    strHas (p :: ps) cs = false :=
  strHas_false p ps cs (fun c hc => (beq_false_of_lowerAlnum (h c hc) hp).1)

/-- The manual extraction rules fix a lowercase-alphanumeric token: it
contains no slash, question mark or colon and no strippable
punctuation. -/
theorem extractManual_fix {cs : List Char}
    (h : ∀ c ∈ cs, isLowerAlnumB c = true) : extractManual cs = cs := by
  rw [extractManual]
  rw [contains_char_false '/' h (by decide)]
  simp only [Bool.false_eq_true, if_false]
  rw [contains_char_false '?' h (by decide)]
  simp only [Bool.false_eq_true, if_false]
  rw [contains_char_false ':' h (by decide)]
  simp only [Bool.false_and, Bool.false_eq_true, if_false]
  exact stripCharsL_fix (fun c hc => punctDot_contains_false (h c hc))

/-- `_extract_hostname` fixes a nonempty lowercase-alphanumeric token. -/
theorem extractHostnameL_fix {cs : List Char} (hne : cs ≠ [])
    (h : ∀ c ∈ cs, isLowerAlnumB c = true) : extractHostnameL cs = cs := by
  have hie : cs.isEmpty = false := by
    cases cs with
    | nil => exact absurd rfl hne
    | cons a l => rfl
  rw [extractHostnameL, hie]
  simp only [Bool.false_eq_true, if_false]
  rw [stripCharsL_fix (fun c hc => punct_contains_false (h c hc))]
  rw [strHas_false_of_alnum h (by decide)]
  simp only [Bool.false_eq_true, if_false]
  exact extractManual_fix h

/-- On a nonempty lowercase-alphanumeric hostname the trust chain reduces
to: the spark-compute pattern, else the ephemeral-storage heuristic, else
the trusted-domain loop (the extraction is the identity, lowercasing is
the identity, and the UUID branch and the `.dfs.core.windows.net`
stripping cannot apply since the host has no dot). -/
theorem isTrustedHostL_alnum (tds : List (List Char)) (cs : List Char)
    (hne : cs ≠ []) (h : ∀ c ∈ cs, isLowerAlnumB c = true) :
    isTrustedHostL tds cs =
      (if sparkHostMatch cs then true
       else if cs.length ≥ 20 && lowerAlnum2022Match cs &&
           !(common_words.any (fun w => strHas w.toList cs)) then true
       else trustedDomainLoop tds cs) := by
  have hie : cs.isEmpty = false := by
    cases cs with
    | nil => exact absurd rfl hne
    | cons a l => rfl
  have hdfs : strHas ".dfs.core.windows.net".toList cs = false :=
    strHas_false_of_alnum h (by decide)
  have huuid : uuidContainerBranch cs = false := by
    rw [uuidContainerBranch, hdfs, Bool.false_and, Bool.false_and]
  rw [isTrustedHostL, extractHostnameL_fix hne h, hie]
  simp only [Bool.false_eq_true, if_false]
  rw [lowerL_fix h, huuid]
  simp only [Bool.false_eq_true, if_false]
  rw [hdfs]
  simp only [Bool.false_eq_true, if_false]

/-- C4 amended: over the default trusted-domain set, (1) every hostname
of exactly 20 lowercase alphanumeric characters containing none of the
excluded substrings is trusted; (2) such a 20-character hostname that
contains `prod` is external UNLESS it matches the internal
`spark\d+triprodeus` pattern or a configured trusted-domain entry (e.g.
`spark12345triprodeus` is trusted); (3) a 19-character lowercase
alphanumeric hostname is external UNLESS it matches the spark pattern or
a trusted-domain entry (e.g. `spark1234triprodeus` is trusted). -/
theorem C4_heuristic_boundary :
    (∀ h : String, h.toList.length = 20 →
      (∀ c ∈ h.toList, isLowerAlnumB c = true) →
      (∀ w ∈ common_words, strHas w.toList h.toList = false) →
      is_trusted_host DEFAULT_TRUSTED_DOMAINS h = true) ∧
    (∀ h : String, h.toList.length = 20 →
      (∀ c ∈ h.toList, isLowerAlnumB c = true) →
      strHas "prod".toList h.toList = true →
      sparkHostMatch h.toList = false →
      trustedDomainLoop (DEFAULT_TRUSTED_DOMAINS.map String.toList)
        h.toList = false →
      is_trusted_host DEFAULT_TRUSTED_DOMAINS h = false) ∧
    (∀ h : String, h.toList.length = 19 →
      (∀ c ∈ h.toList, isLowerAlnumB c = true) →
      sparkHostMatch h.toList = false →
      trustedDomainLoop (DEFAULT_TRUSTED_DOMAINS.map String.toList)
        h.toList = false →
      is_trusted_host DEFAULT_TRUSTED_DOMAINS h = false) := by
  refine ⟨?_, ?_, ?_⟩
  · intro h hlen hall hw
    have hne : h.toList ≠ [] := by
      intro hh; rw [hh] at hlen; exact absurd hlen (by decide)
    rw [is_trusted_host, isTrustedHostL_alnum _ _ hne hall]
    by_cases hsp : sparkHostMatch h.toList = true
    · rw [if_pos hsp]
    · have hla : lowerAlnum2022Match h.toList = true := by
        rw [lowerAlnum2022Match, hlen, List.all_eq_true.mpr hall]
        decide
      have hcw : (common_words.any (fun w => strHas w.toList h.toList)) = false := by
        cases hx : common_words.any (fun w => strHas w.toList h.toList)
        · rfl
        · obtain ⟨w, hwm, hws⟩ := List.any_eq_true.mp hx
          rw [hw w hwm] at hws
          exact absurd hws (by decide)
      have hcond : (h.toList.length ≥ 20 && lowerAlnum2022Match h.toList &&
          !(common_words.any (fun w => strHas w.toList h.toList))) = true := by
        rw [hla, hcw, hlen]
        decide
      rw [if_neg hsp, if_pos hcond]
  · intro h hlen hall hprod hsp hloop
    have hne : h.toList ≠ [] := by
      intro hh; rw [hh] at hlen; exact absurd hlen (by decide)
    rw [is_trusted_host, isTrustedHostL_alnum _ _ hne hall]
    have hcw : (common_words.any (fun w => strHas w.toList h.toList)) = true :=
      List.any_eq_true.mpr ⟨"prod", by decide, hprod⟩
    have hcond : (h.toList.length ≥ 20 && lowerAlnum2022Match h.toList &&
        !(common_words.any (fun w => strHas w.toList h.toList))) = false := by
      rw [hcw]
      simp
    rw [if_neg (by rw [hsp]; decide), if_neg (by rw [hcond]; decide)]
    exact hloop
  · intro h hlen hall hsp hloop
    have hne : h.toList ≠ [] := by
      intro hh; rw [hh] at hlen; exact absurd hlen (by decide)
    rw [is_trusted_host, isTrustedHostL_alnum _ _ hne hall]
    have hla : lowerAlnum2022Match h.toList = false := by
      rw [lowerAlnum2022Match, hlen]
      simp
    have hcond : (h.toList.length ≥ 20 && lowerAlnum2022Match h.toList &&
        !(common_words.any (fun w => strHas w.toList h.toList))) = false := by
      rw [hlen, hla]
      simp
    rw [if_neg (by rw [hsp]; decide), if_neg (by rw [hcond]; decide)]
    exact hloop

/-- C4 witness: the three amended parts applied at concrete hostnames —
a clean 20-character name is trusted, a 20-character name containing
`prod` (and matching neither the spark pattern nor any domain entry) is
external, and a 19-character name (same side conditions) is external. -/
theorem C4_heuristic_boundary_witness :
    is_trusted_host DEFAULT_TRUSTED_DOMAINS "abcdefghij0123456789" = true ∧
    is_trusted_host DEFAULT_TRUSTED_DOMAINS "prodaaaaaaaaaaaaaaaa" = false ∧
    is_trusted_host DEFAULT_TRUSTED_DOMAINS "aaaaaaaaaaaaaaaaaaa" = false :=
  ⟨C4_heuristic_boundary.1 "abcdefghij0123456789" (by decide) (by decide)
      (by decide),
   C4_heuristic_boundary.2.1 "prodaaaaaaaaaaaaaaaa" (by decide) (by decide)
      (by decide) (by decide) (by decide),
   C4_heuristic_boundary.2.2 "aaaaaaaaaaaaaaaaaaa" (by decide) (by decide)
      (by decide) (by decide)⟩

/-- C4 counterexample: `spark12345triprodeus` is a hostname of exactly 20
lowercase alphanumeric characters that contains the excluded substring
`prod`, yet classification against the default set is TRUSTED (the
spark-compute rule precedes the heuristic's exclusion list), refuting the
claim that every such hostname is external. -/
theorem C4_counterexample :
    is_trusted_host DEFAULT_TRUSTED_DOMAINS "spark12345triprodeus" = true ∧
    "spark12345triprodeus".toList.length = 20 ∧
    (∀ c ∈ "spark12345triprodeus".toList, isLowerAlnumB c = true) ∧
    strHas "prod".toList "spark12345triprodeus".toList = true := by
  refine ⟨?_, ?_, ?_, ?_⟩ <;> decide

end SparkLogs
